import Mathlib

/-!
Shallow embedding of the `local-ai-chat` backend core
(`src/backend/app.py`, `src/backend/db_init.py`).

The SQLite store is modelled as lists of rows (one list per table), each
row a structure with the table's columns.  Handlers are pure functions
from a database state and request data to a response and a new database
state.  Python request values (JSON bodies) are modelled by `ReqVal`;
Python `int(...)` raising `ValueError`/`TypeError` is modelled by
`Except String`.  PyJWT (an external library) is modelled at the
abstraction level of the spec: a token is a payload plus a MAC computed
from the process secret, and decoding checks the MAC and the expiry.
Time is an abstract counter of minutes.  `AVG(rating)` (a SQLite float)
is modelled exactly as a rational; the claims under study only touch
exactly representable averages.
-/

/-- A row of the `users` table (db_init.py lines 11-20).  `id` is the
AUTOINCREMENT primary key; real rows always have `id ≥ 1`. -/
structure UserRow where
  id : Nat
  username : String
  email : String
  password_hash : String
  points : Nat
  deriving Repr, DecidableEq

/-- The public projection of a user returned by the API
(`SELECT id, username, email, points FROM users`): by construction it has
no `password_hash` field. -/
structure UserPublic where
  id : Nat
  username : String
  email : String
  points : Nat
  deriving Repr, DecidableEq

/-- Projection of a user row to its API-visible fields. -/
def UserRow.pub (u : UserRow) : UserPublic :=
  { id := u.id, username := u.username, email := u.email, points := u.points }

/-- A row of the `completions` table (db_init.py lines 23-31). -/
structure CompletionRow where
  id : Nat
  user_id : Nat
  course_id : String
  deriving Repr, DecidableEq

/-- A row of the `ratings` table (db_init.py lines 34-43).  `created_at`
is refreshed on re-rate (app.py line 161). -/
structure RatingRow where
  id : Nat
  user_id : Nat
  course_id : String
  rating : Int
  created_at : Nat
  deriving Repr, DecidableEq

/-- The SQLite database: three tables plus per-table AUTOINCREMENT
counters (next fresh primary key, starting at 1). -/
structure DB where
  users : List UserRow
  completions : List CompletionRow
  ratings : List RatingRow
  nextUserId : Nat
  nextCompletionId : Nat
  nextRatingId : Nat
  deriving Repr, DecidableEq

/-- A JSON value arriving in a request body, as Python sees it
(`data.get(...)` yields `None` when the key is absent). -/
inductive ReqVal where
  | rNull
  | rBool (b : Bool)
  | rInt (n : Int)
  | rStr (s : String)
  deriving Repr, DecidableEq

/-- Python truthiness of a request value (`None`, `False`, `0` and the
empty string are falsy). -/
def pyTruthy : ReqVal → Bool
  | ReqVal.rNull => false
  | ReqVal.rBool b => b
  | ReqVal.rInt n => n != 0
  | ReqVal.rStr s => s != ""

/-- Decimal digit character for `d < 10` (used to model Python `str`). -/
def digitChar : Nat → Char
  | 0 => '0'
  | 1 => '1'
  | 2 => '2'
  | 3 => '3'
  | 4 => '4'
  | 5 => '5'
  | 6 => '6'
  | 7 => '7'
  | 8 => '8'
  | _ => '9'

/-- Value of a decimal digit character, `none` for a non-digit. -/
def digitVal? (c : Char) : Option Nat :=
  if c = '0' then some 0
  else if c = '1' then some 1
  else if c = '2' then some 2
  else if c = '3' then some 3
  else if c = '4' then some 4
  else if c = '5' then some 5
  else if c = '6' then some 6
  else if c = '7' then some 7
  else if c = '8' then some 8
  else if c = '9' then some 9
  else none

/-- Decimal digit expansion with explicit fuel (structural recursion, so
that concrete instances reduce); the fuel never runs out when it exceeds
the number. -/
def natDigitsAux : Nat → Nat → List Char
  | 0, _ => []
  | fuel + 1, n =>
    if n < 10 then [digitChar n]
    else natDigitsAux fuel (n / 10) ++ [digitChar (n % 10)]

/-- Decimal digits of a natural number, most significant first
(the character content of Python `str(n)` for `n ≥ 0`). -/
def natDigits (n : Nat) : List Char :=
  natDigitsAux (n + 1) n

/-- Python `str(n)` for a natural number `n`. -/
def pyStrOfNat (n : Nat) : String :=
  String.mk (natDigits n)

/-- Left-to-right accumulation of decimal digits; fails on a non-digit. -/
def parseDigitsAux : List Char → Nat → Option Nat
  | [], a => some a
  | c :: cs, a =>
    match digitVal? c with
    | some d => parseDigitsAux cs (a * 10 + d)
    | none => none

/-- Python `int(s)` on a string: an optional sign followed by a nonempty
run of decimal digits; anything else raises (modelled as `none`).
Python additionally strips surrounding whitespace and allows digit-group
underscores; those inputs never arise in this system and are immaterial
to the claims. -/
def pyIntOfChars (l : List Char) : Option Int :=
  match l with
  | [] => none
  | c :: cs =>
    if c = '-' then
      if cs = [] then none else (parseDigitsAux cs 0).map (fun n => -(n : Int))
    else if c = '+' then
      if cs = [] then none else (parseDigitsAux cs 0).map (fun n => (n : Int))
    else (parseDigitsAux l 0).map (fun n => (n : Int))

/-- Python `int(s)` on a `String`. -/
def pyIntOfString (s : String) : Option Int :=
  pyIntOfChars s.data

/-- Python `int(v)` on a request value: ints pass through, booleans
become 0/1, strings are parsed (raising `ValueError` on failure), and
`None` raises `TypeError` (app.py line 153 applies this to
`data.get('rating') or 0`). -/
def pyInt : ReqVal → Except String Int
  | ReqVal.rNull => Except.error "TypeError"
  | ReqVal.rBool b => Except.ok (if b then 1 else 0)
  | ReqVal.rInt n => Except.ok n
  | ReqVal.rStr s =>
    match pyIntOfString s with
    | some n => Except.ok n
    | none => Except.error "ValueError"

/-- Lowercasing of one ASCII character (Python `str.lower`; the claims
only exercise ASCII data). -/
def pyCharLower (c : Char) : Char :=
  if c = 'A' then 'a' else if c = 'B' then 'b' else if c = 'C' then 'c'
  else if c = 'D' then 'd' else if c = 'E' then 'e' else if c = 'F' then 'f'
  else if c = 'G' then 'g' else if c = 'H' then 'h' else if c = 'I' then 'i'
  else if c = 'J' then 'j' else if c = 'K' then 'k' else if c = 'L' then 'l'
  else if c = 'M' then 'm' else if c = 'N' then 'n' else if c = 'O' then 'o'
  else if c = 'P' then 'p' else if c = 'Q' then 'q' else if c = 'R' then 'r'
  else if c = 'S' then 's' else if c = 'T' then 't' else if c = 'U' then 'u'
  else if c = 'V' then 'v' else if c = 'W' then 'w' else if c = 'X' then 'x'
  else if c = 'Y' then 'y' else if c = 'Z' then 'z' else c

/-- Python `str.lower()`. -/
def pyLower (s : String) : String :=
  String.mk (s.data.map pyCharLower)

/-- Whitespace recognized by Python `str.strip()` (ASCII cases). -/
def isPySpace (c : Char) : Bool :=
  c = ' ' || c = '\t' || c = '\n' || c = '\r'

/-- Python `str.strip()`: drop whitespace from both ends. -/
def pyStrip (s : String) : String :=
  String.mk (((s.data.dropWhile isPySpace).reverse.dropWhile isPySpace).reverse)

/-- The process-wide signing secret (app.py line 10; its development
default value). -/
def JWT_SECRET : String := "dev-secret-change-me"

/-- Decoded JWT payload: subject (a string, per the code comment at
app.py line 44) and an absolute expiry time in minutes. -/
structure JwtPayload where
  sub : String
  exp : Nat
  deriving Repr, DecidableEq

/-- A signed token: the payload fields plus a MAC over them.  Stands for
the serialized JWT string; the claims only inspect it through encode and
decode. -/
structure TokenT where
  sub : String
  exp : Nat
  mac : Nat
  deriving Repr, DecidableEq

/-- Model of the HMAC-SHA256 tag over the payload with the secret: a
concrete keyed digest; decoding accepts a token iff its mac equals this
value, which is all the claims need of the real MAC. -/
def sigOf (secret : String) (sub : String) (exp : Nat) : Nat :=
  (secret.data.foldl (fun a c => a * 31 + c.toNat) 7) * 1000003 +
    (sub.data.foldl (fun a c => a * 31 + c.toNat) 11) * 65599 + exp

/-- Decoding failures PyJWT raises as exceptions. -/
inductive JwtError where
  | invalidSignature
  | expired
  deriving Repr, DecidableEq

/-- Model of `jwt.encode(payload, secret, algorithm)`. -/
def jwtEncode (secret : String) (sub : String) (exp : Nat) : TokenT :=
  { sub := sub, exp := exp, mac := sigOf secret sub exp }

/-- Model of `jwt.decode(token, secret, algorithms)`: raises on a MAC
mismatch (covering both tampering and malformed tokens) and on expiry
(PyJWT raises when `exp < now`). -/
def jwtDecodeExc (secret : String) (now : Nat) (t : TokenT) :
    Except JwtError JwtPayload :=
  if t.mac ≠ sigOf secret t.sub t.exp then Except.error JwtError.invalidSignature
  else if t.exp < now then Except.error JwtError.expired
  else Except.ok { sub := t.sub, exp := t.exp }

/-- make_token (app.py lines 42-46): subject is `str(user_id)`, expiry is
now plus `expires_minutes` (default 7 days); time is counted in
minutes. -/
def make_token (user_id : Nat) (now : Nat)
    (expires_minutes : Nat := 60 * 24 * 7) : TokenT :=
  jwtEncode JWT_SECRET (pyStrOfNat user_id) (now + expires_minutes)

/-- verify_token (app.py lines 48-58): decode inside a try/except —
every decode exception yields `none`; then `int(sub)` inside its own
try/except — a subject that does not parse to an integer yields `none`.
A payload lacking `sub` (so `int(None)` raises) is subsumed by the
non-parsing case. -/
def verify_token (token : TokenT) (now : Nat) : Option Int :=
  match jwtDecodeExc JWT_SECRET now token with
  | Except.error _ => none
  | Except.ok payload =>
    match pyIntOfString payload.sub with
    | some n => some n
    | none => none

/-- Model of werkzeug `generate_password_hash`: a one-way salted hash,
modelled as a tagging injective in the password; the claims only need
that checking a stored hash against a password decides equality of the
passwords. -/
def generate_password_hash (p : String) : String :=
  "pbkdf2:" ++ p

/-- Model of werkzeug `check_password_hash`. -/
def check_password_hash (h : String) (p : String) : Bool :=
  h = generate_password_hash p

/-- `SELECT ... FROM users WHERE id = ?` with `one=True`. -/
def findUserById (db : DB) (uid : Nat) : Option UserRow :=
  db.users.find? (fun u => u.id == uid)

/-- `SELECT ... FROM users WHERE email = ?` with `one=True`. -/
def findUserByEmail (db : DB) (e : String) : Option UserRow :=
  db.users.find? (fun u => u.email == e)

/-- `SELECT id FROM completions WHERE user_id = ? AND course_id = ?`. -/
def findCompletion (db : DB) (uid : Nat) (cid : String) : Option CompletionRow :=
  db.completions.find? (fun r => r.user_id == uid && r.course_id == cid)

/-- `SELECT id FROM ratings WHERE user_id = ? AND course_id = ?`. -/
def findRating (db : DB) (uid : Nat) (cid : String) : Option RatingRow :=
  db.ratings.find? (fun r => r.user_id == uid && r.course_id == cid)

/-- Rating rows of one course. -/
def courseRatings (db : DB) (cid : String) : List RatingRow :=
  db.ratings.filter (fun r => r.course_id == cid)

/-- `COUNT(*)` over a course's ratings. -/
def ratingCount (db : DB) (cid : String) : Nat :=
  (courseRatings db cid).length

/-- Sum of a course's rating values. -/
def ratingSum (db : DB) (cid : String) : Int :=
  ((courseRatings db cid).map (fun r => r.rating)).sum

/-- `AVG(rating)` over a course's ratings: SQL NULL when there are no
rows, otherwise the exact rational mean. -/
def ratingAvg (db : DB) (cid : String) : Option ℚ :=
  if ratingCount db cid = 0 then none
  else some ((ratingSum db cid : ℚ) / (ratingCount db cid : ℚ))

/-- Response of the register endpoint (app.py lines 77-97). -/
structure RegisterResp where
  status : Nat
  error : Option String
  token : Option TokenT
  user : Option UserPublic
  deriving Repr, DecidableEq

/-- register (app.py lines 77-97).  `username`/`email`/`password` are the
request fields (`none` when absent); `now` is the issue time for the
token. -/
def register (db : DB) (username email password : Option String)
    (now : Nat) : RegisterResp × DB :=
  let u := pyStrip (username.getD "")
  let e := pyLower (pyStrip (email.getD ""))
  let p := password.getD ""
  if u = "" ∨ e = "" ∨ p = "" ∨ p.length < 6 then
    ({ status := 400,
       error := some "Invalid input, provide username, email and password (min 6 chars)",
       token := none, user := none }, db)
  else
    match db.users.find? (fun r => r.email == e || r.username == u) with
    | some _ =>
      ({ status := 400,
         error := some "User with that email or username already exists",
         token := none, user := none }, db)
    | none =>
      let password_hash := generate_password_hash p
      let user_id := db.nextUserId
      let db1 : DB :=
        { db with
          users := db.users ++
            [{ id := user_id, username := u, email := e,
               password_hash := password_hash, points := 0 }],
          nextUserId := db.nextUserId + 1 }
      let token := make_token user_id now
      match findUserById db1 user_id with
      | some row =>
        ({ status := 200, error := none, token := some token,
           user := some row.pub }, db1)
      | none =>
        ({ status := 200, error := none, token := some token,
           user := none }, db1)

/-- Response of the login endpoint (app.py lines 99-115). -/
structure LoginResp where
  status : Nat
  error : Option String
  token : Option TokenT
  user : Option UserPublic
  deriving Repr, DecidableEq

/-- login (app.py lines 99-115).  Reads the store only, so it returns
just the response. -/
def login (db : DB) (email password : Option String) (now : Nat) : LoginResp :=
  let e := pyLower (pyStrip (email.getD ""))
  let p := password.getD ""
  if e = "" ∨ p = "" then
    { status := 400, error := some "Missing email/password",
      token := none, user := none }
  else
    match findUserByEmail db e with
    | none =>
      { status := 401, error := some "Invalid credentials",
        token := none, user := none }
    | some user =>
      if check_password_hash user.password_hash p then
        { status := 200, error := none,
          token := some (make_token user.id now), user := some user.pub }
      else
        { status := 401, error := some "Invalid credentials",
          token := none, user := none }

/-- The committed transaction `INSERT INTO completions (user_id, course_id)`
(app.py line 140): `execute_db` commits right after the statement, so this
is a durable state on its own. -/
def insertCompletion (db : DB) (uid : Nat) (cid : String) : DB :=
  { db with
    completions := db.completions ++
      [{ id := db.nextCompletionId, user_id := uid, course_id := cid }],
    nextCompletionId := db.nextCompletionId + 1 }

/-- The committed transaction `UPDATE users SET points = points + ? WHERE
id = ?` (app.py line 143), again committed on its own by `execute_db`. -/
def awardPoints (db : DB) (uid : Nat) (n : Nat) : DB :=
  { db with
    users := db.users.map (fun u =>
      if u.id = uid then { u with points := u.points + n } else u) }

/-- Response of the complete_course endpoint (app.py lines 126-146).
`points_awarded = none` models the key being absent from the JSON body
(the already-completed and error branches do not emit it). -/
structure CompleteResp where
  status : Nat
  error : Option String
  message : Option String
  points_awarded : Option Nat
  user : Option UserPublic
  deriving Repr, DecidableEq

/-- complete_course (app.py lines 126-146), given the current user row
that auth_required loaded.  The awarding path runs `insertCompletion`
and `awardPoints` as two separately committed transactions, in that
order, exactly as the code does. -/
def complete_course (db : DB) (user : UserRow) (course_id : Option String) :
    CompleteResp × DB :=
  if course_id.getD "" = "" then
    ({ status := 400, error := some "Missing course_id", message := none,
       points_awarded := none, user := none }, db)
  else
    let cid := course_id.getD ""
    match findCompletion db user.id cid with
    | some _ =>
      ({ status := 200, error := none, message := some "Already completed",
         points_awarded := none, user := some user.pub }, db)
    | none =>
      let db1 := insertCompletion db user.id cid
      let points_awarded := 100
      let db2 := awardPoints db1 user.id points_awarded
      match findUserById db2 user.id with
      | some updated =>
        ({ status := 200, error := none, message := some "Course completed",
           points_awarded := some points_awarded,
           user := some updated.pub }, db2)
      | none =>
        ({ status := 200, error := none, message := some "Course completed",
           points_awarded := some points_awarded, user := none }, db2)

/-- The spec's abstract `awarded` flag (spec §4.4) read off the concrete
response: the code signals an award through the message text. -/
def CompleteResp.awarded (r : CompleteResp) : Bool :=
  r.message = some "Course completed"

/-- The spec's abstract `points_awarded` (spec §4.4): 0 where the code
omits the key. -/
def CompleteResp.pointsAwarded (r : CompleteResp) : Nat :=
  r.points_awarded.getD 0

/-- Response of the rate_course endpoint (app.py lines 148-167).
`average`/`count` are `none` in the error branch, which does not emit
them; `average` is also `none` when `AVG` is SQL NULL. -/
structure RateResp where
  status : Nat
  error : Option String
  message : Option String
  average : Option ℚ
  count : Option Nat
  deriving Repr, DecidableEq

/-- rate_course (app.py lines 148-167), given the current user.  Line 153
runs `int(data.get('rating') or 0)` before any validation; an unparsable
value raises, and the exception escapes the handler (`Except.error`,
surfacing as an HTTP 500, not a JSON error body). -/
def rate_course (db : DB) (user : UserRow) (course_id : Option String)
    (rating_val : ReqVal) (now : Nat) : Except String (RateResp × DB) :=
  match pyInt (if pyTruthy rating_val then rating_val else ReqVal.rInt 0) with
  | Except.error exn => Except.error exn
  | Except.ok rating =>
    if course_id.getD "" = "" ∨ rating < 1 ∨ 5 < rating then
      Except.ok ({ status := 400,
                   error := some "Invalid course_id or rating (1-5 required)",
                   message := none, average := none, count := none }, db)
    else
      let cid := course_id.getD ""
      let db1 :=
        match findRating db user.id cid with
        | some existing =>
          { db with
            ratings := db.ratings.map (fun r =>
              if r.id = existing.id then
                { r with rating := rating, created_at := now }
              else r) }
        | none =>
          { db with
            ratings := db.ratings ++
              [{ id := db.nextRatingId, user_id := user.id, course_id := cid,
                 rating := rating, created_at := now }],
            nextRatingId := db.nextRatingId + 1 }
      Except.ok ({ status := 200, error := none,
                   message := some "Rating saved",
                   average := ratingAvg db1 cid,
                   count := some (ratingCount db1 cid) }, db1)

/-- A course record in the listing response.  `completed = none` models
the `completed` key being absent. -/
structure CourseOut where
  id : String
  avg_rating : Option ℚ
  rating_count : Nat
  completed : Option Bool
  deriving Repr, DecidableEq

/-- courses (app.py lines 169-200).  `catalog` is the external
courses.json read as the list of course ids; `auth` is the token carried
by a well-formed `Authorization: Bearer` header, `none` when the header
is absent or malformed.  The code materializes the user's completion set
and tests membership; testing each row directly is the same predicate. -/
def courses (db : DB) (catalog : List String) (auth : Option TokenT)
    (now : Nat) : List CourseOut :=
  let out := catalog.map (fun cid =>
    { id := cid, avg_rating := ratingAvg db cid,
      rating_count := ratingCount db cid, completed := none })
  match auth with
  | none => out
  | some t =>
    match verify_token t now with
    | none => out
    | some uid =>
      if uid ≠ 0 then
        out.map (fun c =>
          { c with
            completed := some (db.completions.any (fun r =>
              (r.user_id : Int) == uid && r.course_id == c.id)) })
      else out

/-- Consistency between points and the completion ledger (spec §4.4/§5):
every user's points equal 100 times the number of completion rows
recorded for that user. -/
def pointsConsistent (db : DB) : Prop :=
  ∀ u ∈ db.users,
    u.points = 100 * db.completions.countP (fun r => r.user_id == u.id)

instance (db : DB) : Decidable (pointsConsistent db) :=
  inferInstanceAs (Decidable (∀ u ∈ db.users,
    u.points = 100 * db.completions.countP (fun r => r.user_id == u.id)))

/-- Folding a sequence of rate calls by one user for one course over the
store.  Valid integral ratings never raise; the error branch keeps the
store unchanged and is never taken in the theorems below. -/
def rateSeq (u : UserRow) (cid : String) (now : Nat) : DB → List Int → DB
  | db, [] => db
  | db, r :: rs =>
    match rate_course db u (some cid) (ReqVal.rInt r) now with
    | Except.ok res => rateSeq u cid now res.2 rs
    | Except.error _ => rateSeq u cid now db rs

/-- A digit character parses back to its value. -/
theorem digitVal?_digitChar (d : Nat) (hd : d < 10) :
    digitVal? (digitChar d) = some d := by
  interval_cases d <;> rfl

/-- Digit accumulation distributes over list append. -/
theorem parseDigitsAux_append (l1 l2 : List Char) (a : Nat) :
    parseDigitsAux (l1 ++ l2) a =
      (parseDigitsAux l1 a).bind (fun a1 => parseDigitsAux l2 a1) := by
  induction l1 generalizing a with
  | nil => rfl
  | cons c cs ih =>
    simp only [List.cons_append, parseDigitsAux]
    cases h : digitVal? c with
    | some d => simpa using ih (a * 10 + d)
    | none => rfl

/-- Parsing the digit expansion of `n` on top of an accumulator recovers
`n`, whenever the fuel suffices. -/
theorem parseDigitsAux_natDigitsAux :
    ∀ fuel n, n < fuel → ∀ a,
      parseDigitsAux (natDigitsAux fuel n) a =
        some (a * 10 ^ (natDigitsAux fuel n).length + n) := by
  intro fuel
  induction fuel with
  | zero => omega
  | succ fuel ih =>
    intro n hn a
    by_cases h : n < 10
    · rw [natDigitsAux]
      simp [h, parseDigitsAux, digitVal?_digitChar n h]
    · have hdiv : n / 10 < fuel := by omega
      rw [natDigitsAux]
      simp only [h, if_neg, not_false_iff, if_false]
      rw [parseDigitsAux_append]
      rw [ih (n / 10) hdiv a]
      simp only [Option.some_bind, parseDigitsAux,
        digitVal?_digitChar (n % 10) (Nat.mod_lt n (by omega)),
        Option.some.injEq]
      rw [List.length_append, List.length_singleton, pow_succ, ← mul_assoc]
      generalize a * 10 ^ (natDigitsAux fuel (n / 10)).length = A
      omega

/-- Parsing the digits of `n` on top of an accumulator recovers `n`. -/
theorem parseDigitsAux_natDigits (n : Nat) :
    ∀ a, parseDigitsAux (natDigits n) a =
      some (a * 10 ^ (natDigits n).length + n) :=
  parseDigitsAux_natDigitsAux (n + 1) n (by omega)

/-- The digit expansion of `n` starts with a digit character, whenever
the fuel suffices. -/
theorem natDigitsAux_head :
    ∀ fuel n, n < fuel →
      ∃ d rest, d < 10 ∧ natDigitsAux fuel n = digitChar d :: rest := by
  intro fuel
  induction fuel with
  | zero => omega
  | succ fuel ih =>
    intro n hn
    by_cases h : n < 10
    · exact ⟨n, [], h, by rw [natDigitsAux]; simp [h]⟩
    · have hdiv : n / 10 < fuel := by omega
      obtain ⟨d, rest, hd, heq⟩ := ih (n / 10) hdiv
      exact ⟨d, rest ++ [digitChar (n % 10)], hd, by
        rw [natDigitsAux]; simp [h, heq]⟩

/-- The digit string of `n` starts with a digit character. -/
theorem natDigits_head (n : Nat) :
    ∃ d rest, d < 10 ∧ natDigits n = digitChar d :: rest :=
  natDigitsAux_head (n + 1) n (by omega)

/-- A digit character is none of the characters that fail `digitVal?`. -/
theorem digitChar_ne (d : Nat) (hd : d < 10) (c : Char)
    (hc : digitVal? c = none) : digitChar d ≠ c := by
  intro h
  rw [← h, digitVal?_digitChar d hd] at hc
  cases hc

/-- Python `int` inverts Python `str` on natural numbers. -/
theorem pyIntOfString_pyStrOfNat (n : Nat) :
    pyIntOfString (pyStrOfNat n) = some (n : Int) := by
  obtain ⟨d, rest, hd, heq⟩ := natDigits_head n
  have hparse : parseDigitsAux (natDigits n) 0 = some n := by
    have h := parseDigitsAux_natDigits n 0
    simpa using h
  have hminus : digitChar d ≠ '-' := digitChar_ne d hd _ (by decide)
  have hplus : digitChar d ≠ '+' := digitChar_ne d hd _ (by decide)
  show pyIntOfChars (natDigits n) = some (n : Int)
  rw [heq, pyIntOfChars]
  simp only [hminus, hplus, if_false, ← heq, hparse, Option.map_some]
  rfl

/-- C5: token verification is total and never throws: for every token and
time, every decode exception (invalid signature / malformed, expired) is
swallowed and yields `none`; a decoded subject that does not parse to an
integer yields `none`; and otherwise the parsed integer id is returned —
so the caller always receives an integer id or `none`, never an
exception. -/
theorem verify_token_total (t : TokenT) (now : Nat) :
    (∀ e, jwtDecodeExc JWT_SECRET now t = Except.error e →
      verify_token t now = none) ∧
    (∀ p, jwtDecodeExc JWT_SECRET now t = Except.ok p →
      pyIntOfString p.sub = none → verify_token t now = none) ∧
    (∀ p n, jwtDecodeExc JWT_SECRET now t = Except.ok p →
      pyIntOfString p.sub = some n → verify_token t now = some n) := by
  refine ⟨?_, ?_, ?_⟩
  · intro e he
    unfold verify_token
    rw [he]
  · intro p hp hsub
    unfold verify_token
    rw [hp]
    dsimp only
    rw [hsub]
  · intro p n hp hsub
    unfold verify_token
    rw [hp]
    dsimp only
    rw [hsub]

/-- Witness for C5 at a concrete input: a token whose MAC is wrong
verifies to `none`. -/
theorem verify_token_total_witness :
    verify_token { sub := "1", exp := 100, mac := 0 } 0 = none :=
  (verify_token_total { sub := "1", exp := 100, mac := 0 } 0).1
    JwtError.invalidSignature (by rfl)

/-- An issued token verifies to its subject at any time up to its
expiry. -/
theorem verify_token_make_token (X now n2 : Nat)
    (h : n2 ≤ now + 60 * 24 * 7) :
    verify_token (make_token X now) n2 = some (X : Int) := by
  have hexp : ¬ (now + 60 * 24 * 7 < n2) := by omega
  unfold verify_token jwtDecodeExc make_token jwtEncode
  simp [hexp, pyIntOfString_pyStrOfNat]

/-- C6: issue/verify round trip.  For every user id X and issue time, the
issued token verifies to X at any time up to its expiry (now + 7 days in
minutes); with a tampered MAC it verifies to `none` at every time; and
strictly after its expiry it verifies to `none`. -/
theorem make_token_roundtrip (X now : Nat) :
    (∀ n2, n2 ≤ now + 60 * 24 * 7 →
      verify_token (make_token X now) n2 = some (X : Int)) ∧
    (∀ mac2, mac2 ≠ (make_token X now).mac → ∀ n2,
      verify_token { make_token X now with mac := mac2 } n2 = none) ∧
    (∀ n2, now + 60 * 24 * 7 < n2 →
      verify_token (make_token X now) n2 = none) := by
  refine ⟨?_, ?_, ?_⟩
  · intro n2 hn2
    exact verify_token_make_token X now n2 hn2
  · intro mac2 hmac n2
    have hmac2 : mac2 ≠ sigOf JWT_SECRET (pyStrOfNat X) (now + 60 * 24 * 7) := hmac
    unfold verify_token jwtDecodeExc make_token jwtEncode
    simp [hmac2]
  · intro n2 hn2
    have hexp : now + 60 * 24 * 7 < n2 := hn2
    unfold verify_token jwtDecodeExc make_token jwtEncode
    simp [hexp]

/-- Witness for C6 at a concrete input: a token issued for user 1 at time
0 verifies to 1 at time 0. -/
theorem make_token_roundtrip_witness :
    verify_token (make_token 1 0) 0 = some 1 :=
  (make_token_roundtrip 1 0).1 0 (by omega)

/-- C7: login failure is indistinguishable between a wrong password for
an existing user (request 1) and a nonexistent email (request 2): both
yield the same response, status 401 with error "Invalid credentials",
for any request times. -/
theorem login_indistinguishable (db : DB)
    (email1 password1 email2 password2 : Option String) (now1 now2 : Nat)
    (u : UserRow)
    (he1 : pyLower (pyStrip (email1.getD "")) ≠ "")
    (hp1 : password1.getD "" ≠ "")
    (hu : findUserByEmail db (pyLower (pyStrip (email1.getD ""))) = some u)
    (hwrong : check_password_hash u.password_hash (password1.getD "") = false)
    (he2 : pyLower (pyStrip (email2.getD "")) ≠ "")
    (hp2 : password2.getD "" ≠ "")
    (hnouser : findUserByEmail db (pyLower (pyStrip (email2.getD ""))) = none) :
    login db email1 password1 now1 = login db email2 password2 now2 ∧
    login db email1 password1 now1 =
      { status := 401, error := some "Invalid credentials",
        token := none, user := none } := by
  have h1 : login db email1 password1 now1 =
      { status := 401, error := some "Invalid credentials",
        token := none, user := none } := by
    simp only [login]
    rw [if_neg (by simp [he1, hp1])]
    rw [hu]
    simp [hwrong]
  have h2 : login db email2 password2 now2 =
      { status := 401, error := some "Invalid credentials",
        token := none, user := none } := by
    simp only [login]
    rw [if_neg (by simp [he2, hp2])]
    rw [hnouser]
  exact ⟨h1.trans h2.symm, h1⟩

/-- Witness for C7 at a concrete store: one registered user; a wrong
password for that user and a login under an unknown email produce
identical 401 responses. -/
theorem login_indistinguishable_witness :
    login
      { users := [{ id := 1, username := "alice", email := "a@x.com",
                    password_hash := generate_password_hash "secret123",
                    points := 0 }],
        completions := [], ratings := [],
        nextUserId := 2, nextCompletionId := 1, nextRatingId := 1 }
      (some "a@x.com") (some "wrongpw") 0 =
    login
      { users := [{ id := 1, username := "alice", email := "a@x.com",
                    password_hash := generate_password_hash "secret123",
                    points := 0 }],
        completions := [], ratings := [],
        nextUserId := 2, nextCompletionId := 1, nextRatingId := 1 }
      (some "b@x.com") (some "whatever") 0 ∧
    login
      { users := [{ id := 1, username := "alice", email := "a@x.com",
                    password_hash := generate_password_hash "secret123",
                    points := 0 }],
        completions := [], ratings := [],
        nextUserId := 2, nextCompletionId := 1, nextRatingId := 1 }
      (some "a@x.com") (some "wrongpw") 0 =
      { status := 401, error := some "Invalid credentials",
        token := none, user := none } :=
  login_indistinguishable _ (some "a@x.com") (some "wrongpw")
    (some "b@x.com") (some "whatever") 0 0
    { id := 1, username := "alice", email := "a@x.com",
      password_hash := generate_password_hash "secret123", points := 0 }
    (by decide) (by decide) (by rfl) (by rfl) (by decide) (by decide) (by rfl)

/-- C9: registration error contract.  An empty (stripped) username or
email, or a password shorter than 6 characters, yields the 400
validation error and leaves the store unchanged; otherwise, an existing
user holding the requested username or the case-normalized email (in
either combination) yields the 400 conflict error and leaves the store
unchanged. -/
theorem register_error_contract (db : DB)
    (username email password : Option String) (now : Nat) :
    ((pyStrip (username.getD "") = "" ∨
        pyLower (pyStrip (email.getD "")) = "" ∨
        (password.getD "").length < 6) →
      register db username email password now =
        ({ status := 400,
           error := some "Invalid input, provide username, email and password (min 6 chars)",
           token := none, user := none }, db)) ∧
    (∀ r ∈ db.users,
      pyStrip (username.getD "") ≠ "" →
      pyLower (pyStrip (email.getD "")) ≠ "" →
      6 ≤ (password.getD "").length →
      (r.email = pyLower (pyStrip (email.getD "")) ∨
        r.username = pyStrip (username.getD "")) →
      register db username email password now =
        ({ status := 400,
           error := some "User with that email or username already exists",
           token := none, user := none }, db)) := by
  constructor
  · intro hcond
    have hcond2 : pyStrip (username.getD "") = "" ∨
        pyLower (pyStrip (email.getD "")) = "" ∨
        password.getD "" = "" ∨ (password.getD "").length < 6 := by
      tauto
    simp only [register]
    rw [if_pos hcond2]
  · intro r hr hu0 he0 hp6 hmatch
    have hpne : password.getD "" ≠ "" := by
      intro h
      rw [h] at hp6
      simp at hp6
    have hcond : ¬ (pyStrip (username.getD "") = "" ∨
        pyLower (pyStrip (email.getD "")) = "" ∨
        password.getD "" = "" ∨ (password.getD "").length < 6) := by
      push_neg
      exact ⟨hu0, he0, hpne, by omega⟩
    have hfind : db.users.find? (fun r2 =>
        r2.email == pyLower (pyStrip (email.getD "")) ||
        r2.username == pyStrip (username.getD "")) ≠ none := by
      rw [Ne, List.find?_eq_none]
      push_neg
      refine ⟨r, hr, ?_⟩
      simp only [Bool.or_eq_true, beq_iff_eq]
      tauto
    cases hf : db.users.find? (fun r2 =>
        r2.email == pyLower (pyStrip (email.getD "")) ||
        r2.username == pyStrip (username.getD "")) with
    | none => exact absurd hf hfind
    | some r0 =>
      simp only [register]
      rw [if_neg hcond, hf]

/-- Witness for C9 at concrete inputs: a short password is rejected with
the validation error, and re-registering an existing email under a new
username is rejected with the conflict error; the store is unchanged in
both cases. -/
theorem register_error_contract_witness :
    (register
      { users := [], completions := [], ratings := [],
        nextUserId := 1, nextCompletionId := 1, nextRatingId := 1 }
      (some "bob") (some "b@x.com") (some "abc") 0 =
      ({ status := 400,
         error := some "Invalid input, provide username, email and password (min 6 chars)",
         token := none, user := none },
       { users := [], completions := [], ratings := [],
         nextUserId := 1, nextCompletionId := 1, nextRatingId := 1 })) ∧
    (register
      { users := [{ id := 1, username := "alice", email := "a@x.com",
                    password_hash := generate_password_hash "secret123",
                    points := 0 }],
        completions := [], ratings := [],
        nextUserId := 2, nextCompletionId := 1, nextRatingId := 1 }
      (some "bob") (some "a@x.com") (some "secret456") 0 =
      ({ status := 400,
         error := some "User with that email or username already exists",
         token := none, user := none },
       { users := [{ id := 1, username := "alice", email := "a@x.com",
                     password_hash := generate_password_hash "secret123",
                     points := 0 }],
         completions := [], ratings := [],
         nextUserId := 2, nextCompletionId := 1, nextRatingId := 1 })) :=
  ⟨(register_error_contract _ (some "bob") (some "b@x.com") (some "abc") 0).1
      (by decide),
   (register_error_contract _ (some "bob") (some "a@x.com")
        (some "secret456") 0).2
      { id := 1, username := "alice", email := "a@x.com",
        password_hash := generate_password_hash "secret123", points := 0 }
      (by simp) (by decide) (by decide) (by decide) (by decide)⟩

/-- C10: a successful registration returns status 200 carrying the
public user record — the fresh id, the normalized username and email,
points 0 and no password hash field — together with a freshly issued
token that verifies, at issue time, to the new user's id. -/
theorem register_success_token (db : DB)
    (username email password : Option String) (now : Nat)
    (hu : pyStrip (username.getD "") ≠ "")
    (he : pyLower (pyStrip (email.getD "")) ≠ "")
    (hp : 6 ≤ (password.getD "").length)
    (hconflict : db.users.find? (fun r =>
      r.email == pyLower (pyStrip (email.getD "")) ||
      r.username == pyStrip (username.getD "")) = none)
    (hfresh : ∀ r ∈ db.users, r.id ≠ db.nextUserId) :
    (register db username email password now).1 =
      { status := 200, error := none,
        token := some (make_token db.nextUserId now),
        user := some { id := db.nextUserId,
                       username := pyStrip (username.getD ""),
                       email := pyLower (pyStrip (email.getD "")),
                       points := 0 } } ∧
    verify_token (make_token db.nextUserId now) now =
      some (db.nextUserId : Int) := by
  constructor
  · have hpne : password.getD "" ≠ "" := by
      intro h
      rw [h] at hp
      simp at hp
    have hcond : ¬ (pyStrip (username.getD "") = "" ∨
        pyLower (pyStrip (email.getD "")) = "" ∨
        password.getD "" = "" ∨ (password.getD "").length < 6) := by
      push_neg
      exact ⟨hu, he, hpne, by omega⟩
    have h1 : db.users.find? (fun r => r.id == db.nextUserId) = none := by
      rw [List.find?_eq_none]
      intro x hx
      simp [hfresh x hx]
    simp only [register]
    rw [if_neg hcond, hconflict]
    dsimp only
    unfold findUserById
    dsimp only
    rw [List.find?_append, h1, Option.none_or]
    simp [UserRow.pub]
  · exact verify_token_make_token db.nextUserId now now (by omega)

/-- Witness for C10 at a concrete input: registering alice on an empty
store returns her public record (id 1, points 0) and a token verifying
to 1. -/
theorem register_success_token_witness :
    (register
      { users := [], completions := [], ratings := [],
        nextUserId := 1, nextCompletionId := 1, nextRatingId := 1 }
      (some "alice") (some "A@X.com") (some "secret123") 0).1 =
      { status := 200, error := none,
        token := some (make_token 1 0),
        user := some { id := 1, username := "alice", email := "a@x.com",
                       points := 0 } } ∧
    verify_token (make_token 1 0) 0 = some 1 :=
  register_success_token
    { users := [], completions := [], ratings := [],
      nextUserId := 1, nextCompletionId := 1, nextRatingId := 1 }
    (some "alice") (some "A@X.com") (some "secret123") 0
    (by decide) (by decide) (by decide) (by rfl) (by simp)

/-- Effect of the points UPDATE on the user lookup: the looked-up row is
the old row with the increment applied. -/
theorem find?_map_award (l : List UserRow) (uid n : Nat) :
    (l.map (fun x => if x.id = uid then { x with points := x.points + n }
      else x)).find? (fun x => x.id == uid) =
      (l.find? (fun x => x.id == uid)).map
        (fun x => { x with points := x.points + n }) := by
  induction l with
  | nil => rfl
  | cons a l ih =>
    by_cases h : a.id = uid
    · simp [List.find?_cons, h]
    · simp [List.find?_cons, h, ih]

/-- C1: completion is idempotent.  Starting from a store with no
completion row for (u, c): the first call awards (message "Course
completed", `awarded`), reports `points_awarded = 100`, and leaves the
user's row with exactly 100 more points; any second call for the same
pair (with the freshly reloaded user row, or any row bearing the same
id) is not an award, reports 0 points awarded, and leaves the store —
hence the user's points — entirely unchanged, so two calls add exactly
100 points in total. -/
theorem complete_course_idempotent (db : DB) (u : UserRow) (cid : String)
    (hcid : cid ≠ "")
    (hload : findUserById db u.id = some u)
    (hnone : findCompletion db u.id cid = none) :
    ((complete_course db u (some cid)).1.awarded = true) ∧
    ((complete_course db u (some cid)).1.pointsAwarded = 100) ∧
    (findUserById (complete_course db u (some cid)).2 u.id =
      some { u with points := u.points + 100 }) ∧
    (∀ u1 : UserRow, u1.id = u.id →
      ((complete_course (complete_course db u (some cid)).2 u1
        (some cid)).1.awarded = false) ∧
      ((complete_course (complete_course db u (some cid)).2 u1
        (some cid)).1.pointsAwarded = 0) ∧
      ((complete_course (complete_course db u (some cid)).2 u1
        (some cid)).2 = (complete_course db u (some cid)).2)) := by
  have hfind2 : findUserById
      (awardPoints (insertCompletion db u.id cid) u.id 100) u.id =
      some { u with points := u.points + 100 } := by
    unfold findUserById awardPoints
    dsimp only
    rw [show (insertCompletion db u.id cid).users = db.users from rfl]
    rw [find?_map_award db.users u.id 100]
    unfold findUserById at hload
    rw [hload]
    rfl
  have hstep : complete_course db u (some cid) =
      ({ status := 200, error := none, message := some "Course completed",
         points_awarded := some 100,
         user := some (UserRow.pub { u with points := u.points + 100 }) },
       awardPoints (insertCompletion db u.id cid) u.id 100) := by
    simp only [complete_course, Option.getD_some]
    rw [if_neg hcid]
    rw [hnone]
    dsimp only
    rw [hfind2]
  refine ⟨by rw [hstep]; rfl, by rw [hstep]; rfl, by rw [hstep]; exact hfind2, ?_⟩
  intro u1 hid
  have hfound : findCompletion
      (awardPoints (insertCompletion db u.id cid) u.id 100) u1.id cid =
      some { id := db.nextCompletionId, user_id := u.id, course_id := cid } := by
    unfold findCompletion awardPoints insertCompletion
    dsimp only
    rw [hid]
    rw [List.find?_append]
    unfold findCompletion at hnone
    rw [hnone]
    simp
  have hstep2 : complete_course
      (awardPoints (insertCompletion db u.id cid) u.id 100) u1 (some cid) =
      ({ status := 200, error := none, message := some "Already completed",
         points_awarded := none, user := some u1.pub },
       awardPoints (insertCompletion db u.id cid) u.id 100) := by
    simp only [complete_course, Option.getD_some]
    rw [if_neg hcid]
    rw [hfound]
  rw [hstep, hstep2]
  exact ⟨rfl, rfl, rfl⟩

/-- Witness for C1 at a concrete store: user 1 completes course "c1"
twice; the first call awards 100 points, the second changes nothing. -/
theorem complete_course_idempotent_witness :
    ((complete_course
      { users := [{ id := 1, username := "alice", email := "a@x.com",
                    password_hash := "h", points := 0 }],
        completions := [], ratings := [],
        nextUserId := 2, nextCompletionId := 1, nextRatingId := 1 }
      { id := 1, username := "alice", email := "a@x.com",
        password_hash := "h", points := 0 } (some "c1")).1.awarded = true) ∧
    ((complete_course
      { users := [{ id := 1, username := "alice", email := "a@x.com",
                    password_hash := "h", points := 0 }],
        completions := [], ratings := [],
        nextUserId := 2, nextCompletionId := 1, nextRatingId := 1 }
      { id := 1, username := "alice", email := "a@x.com",
        password_hash := "h", points := 0 } (some "c1")).1.pointsAwarded = 100) ∧
    (findUserById (complete_course
      { users := [{ id := 1, username := "alice", email := "a@x.com",
                    password_hash := "h", points := 0 }],
        completions := [], ratings := [],
        nextUserId := 2, nextCompletionId := 1, nextRatingId := 1 }
      { id := 1, username := "alice", email := "a@x.com",
        password_hash := "h", points := 0 } (some "c1")).2 1 =
      some { id := 1, username := "alice", email := "a@x.com",
             password_hash := "h", points := 100 }) ∧
    (((complete_course (complete_course
      { users := [{ id := 1, username := "alice", email := "a@x.com",
                    password_hash := "h", points := 0 }],
        completions := [], ratings := [],
        nextUserId := 2, nextCompletionId := 1, nextRatingId := 1 }
      { id := 1, username := "alice", email := "a@x.com",
        password_hash := "h", points := 0 } (some "c1")).2
      { id := 1, username := "alice", email := "a@x.com",
        password_hash := "h", points := 100 } (some "c1")).1.awarded = false) ∧
    ((complete_course (complete_course
      { users := [{ id := 1, username := "alice", email := "a@x.com",
                    password_hash := "h", points := 0 }],
        completions := [], ratings := [],
        nextUserId := 2, nextCompletionId := 1, nextRatingId := 1 }
      { id := 1, username := "alice", email := "a@x.com",
        password_hash := "h", points := 0 } (some "c1")).2
      { id := 1, username := "alice", email := "a@x.com",
        password_hash := "h", points := 100 } (some "c1")).1.pointsAwarded = 0) ∧
    ((complete_course (complete_course
      { users := [{ id := 1, username := "alice", email := "a@x.com",
                    password_hash := "h", points := 0 }],
        completions := [], ratings := [],
        nextUserId := 2, nextCompletionId := 1, nextRatingId := 1 }
      { id := 1, username := "alice", email := "a@x.com",
        password_hash := "h", points := 0 } (some "c1")).2
      { id := 1, username := "alice", email := "a@x.com",
        password_hash := "h", points := 100 } (some "c1")).2 =
      (complete_course
      { users := [{ id := 1, username := "alice", email := "a@x.com",
                    password_hash := "h", points := 0 }],
        completions := [], ratings := [],
        nextUserId := 2, nextCompletionId := 1, nextRatingId := 1 }
      { id := 1, username := "alice", email := "a@x.com",
        password_hash := "h", points := 0 } (some "c1")).2)) :=
  let h := complete_course_idempotent
    { users := [{ id := 1, username := "alice", email := "a@x.com",
                  password_hash := "h", points := 0 }],
      completions := [], ratings := [],
      nextUserId := 2, nextCompletionId := 1, nextRatingId := 1 }
    { id := 1, username := "alice", email := "a@x.com",
      password_hash := "h", points := 0 } "c1"
    (by decide) (by rfl) (by rfl)
  ⟨h.1, h.2.1, h.2.2.1,
   (h.2.2.2 { id := 1, username := "alice", email := "a@x.com",
              password_hash := "h", points := 100 } rfl).1,
   (h.2.2.2 { id := 1, username := "alice", email := "a@x.com",
              password_hash := "h", points := 100 } rfl).2.1,
   (h.2.2.2 { id := 1, username := "alice", email := "a@x.com",
              password_hash := "h", points := 100 } rfl).2.2⟩

/-- C2 counter-evidence: the completion INSERT and the points UPDATE are
committed by two separate `execute_db` calls (app.py lines 140 and 143),
not one transaction.  At a concrete store the points/completions
consistency invariant holds before `complete`, is violated in the
durable state right after the first committed transaction of the
awarding path (a completion row exists, points not yet incremented), and
holds again only after the second; the final conjunct checks that this
two-step composition is exactly what `complete_course` executes. -/
theorem complete_course_not_atomic :
    pointsConsistent
      { users := [{ id := 1, username := "alice", email := "a@x.com",
                    password_hash := "h", points := 0 }],
        completions := [], ratings := [],
        nextUserId := 2, nextCompletionId := 1, nextRatingId := 1 } ∧
    ¬ pointsConsistent
      (insertCompletion
        { users := [{ id := 1, username := "alice", email := "a@x.com",
                      password_hash := "h", points := 0 }],
          completions := [], ratings := [],
          nextUserId := 2, nextCompletionId := 1, nextRatingId := 1 }
        1 "c1") ∧
    pointsConsistent
      (awardPoints
        (insertCompletion
          { users := [{ id := 1, username := "alice", email := "a@x.com",
                        password_hash := "h", points := 0 }],
            completions := [], ratings := [],
            nextUserId := 2, nextCompletionId := 1, nextRatingId := 1 }
          1 "c1")
        1 100) ∧
    (complete_course
        { users := [{ id := 1, username := "alice", email := "a@x.com",
                      password_hash := "h", points := 0 }],
          completions := [], ratings := [],
          nextUserId := 2, nextCompletionId := 1, nextRatingId := 1 }
        { id := 1, username := "alice", email := "a@x.com",
          password_hash := "h", points := 0 } (some "c1")).2 =
      awardPoints
        (insertCompletion
          { users := [{ id := 1, username := "alice", email := "a@x.com",
                        password_hash := "h", points := 0 }],
            completions := [], ratings := [],
            nextUserId := 2, nextCompletionId := 1, nextRatingId := 1 }
          1 "c1")
        1 100 := by
  refine ⟨by decide, by decide, by decide, by rfl⟩

/-- C4 counter-evidence: `int(data.get('rating') or 0)` (app.py line 153)
runs before any validation, so a non-numeric rating raises ValueError
out of the handler — an HTTP 500 server error with no JSON error body —
instead of the claimed 400 ValidationError; in particular nothing is
validated and no 400 response is produced.  Evaluated at the concrete
failing request below (authenticated user 1, course "c1",
rating "abc"). -/
theorem rate_course_raises_on_nonnumeric :
    rate_course
      { users := [{ id := 1, username := "alice", email := "a@x.com",
                    password_hash := "h", points := 0 }],
        completions := [], ratings := [],
        nextUserId := 2, nextCompletionId := 1, nextRatingId := 1 }
      { id := 1, username := "alice", email := "a@x.com",
        password_hash := "h", points := 0 }
      (some "c1") (ReqVal.rStr "abc") 0 = Except.error "ValueError" := by
  rfl

/-- Filtering commutes with a map that preserves the predicate. -/
theorem filter_map_comm {α : Type} (f : α → α) (p : α → Bool) :
    ∀ l : List α, (∀ x ∈ l, p (f x) = p x) →
      (l.map f).filter p = (l.filter p).map f := by
  intro l
  induction l with
  | nil => intro _; rfl
  | cons a l ih =>
    intro h
    have ha := h a (by simp)
    have hrest := ih (fun x hx => h x (List.mem_cons_of_mem a hx))
    cases hpa : p a with
    | true => simp [List.filter_cons, hpa, ha, hrest]
    | false => simp [List.filter_cons, hpa, ha, hrest]

/-- One valid rate call (integral rating in [1,5]) succeeds and leaves
exactly one rating row for the (user, course) key, holding the new
value; the response reports the post-state aggregate.  The length
hypothesis is the UNIQUE(user_id, course_id) storage invariant. -/
theorem rate_course_step (db : DB) (u : UserRow) (cid : String) (r : Int)
    (now : Nat) (hcid : cid ≠ "") (h1 : 1 ≤ r) (h5 : r ≤ 5)
    (hinv : (db.ratings.filter (fun x =>
      x.user_id == u.id && x.course_id == cid)).length ≤ 1) :
    ∃ resp db1,
      rate_course db u (some cid) (ReqVal.rInt r) now =
        Except.ok (resp, db1) ∧
      (∃ row : RatingRow,
        db1.ratings.filter (fun x =>
          x.user_id == u.id && x.course_id == cid) = [row] ∧
        row.rating = r) ∧
      resp.status = 200 ∧
      resp.count = some (ratingCount db1 cid) ∧
      resp.average = ratingAvg db1 cid := by
  have htr : pyTruthy (ReqVal.rInt r) = true := by
    simp only [pyTruthy, bne_iff_ne, ne_eq, decide_not, decide_eq_true_eq]
    omega
  have hpy : pyInt (if pyTruthy (ReqVal.rInt r) then ReqVal.rInt r
      else ReqVal.rInt 0) = Except.ok r := by
    rw [htr]
    rfl
  have hval : ¬ (cid = "" ∨ r < 1 ∨ 5 < r) := by
    push_neg
    exact ⟨hcid, by omega, by omega⟩
  simp only [rate_course, hpy, Option.getD_some]
  rw [if_neg hval]
  cases hfr : findRating db u.id cid with
  | none =>
    dsimp only
    unfold findRating at hfr
    have hnil : db.ratings.filter (fun x =>
        x.user_id == u.id && x.course_id == cid) = [] := by
      rw [List.filter_eq_nil_iff]
      exact fun x hx => by simpa using List.find?_eq_none.mp hfr x hx
    refine ⟨_, _, rfl, ?_, rfl, rfl, rfl⟩
    refine ⟨{ id := db.nextRatingId, user_id := u.id, course_id := cid,
              rating := r, created_at := now }, ?_, rfl⟩
    dsimp only
    rw [List.filter_append, hnil]
    simp
  | some ex =>
    dsimp only
    unfold findRating at hfr
    have hpred : (ex.user_id == u.id && ex.course_id == cid) = true := by
      have h2 := List.find?_some hfr
      simpa using h2
    have hmem : ex ∈ db.ratings := List.mem_of_find?_eq_some hfr
    have hexfilter : ex ∈ db.ratings.filter (fun x =>
        x.user_id == u.id && x.course_id == cid) :=
      List.mem_filter.mpr ⟨hmem, hpred⟩
    have hfil : db.ratings.filter (fun x =>
        x.user_id == u.id && x.course_id == cid) = [ex] := by
      cases hfl : db.ratings.filter (fun x =>
          x.user_id == u.id && x.course_id == cid) with
      | nil =>
        rw [hfl] at hexfilter
        cases hexfilter
      | cons a rest =>
        cases rest with
        | nil =>
          rw [hfl] at hexfilter
          simp only [List.mem_singleton] at hexfilter
          rw [hexfilter]
        | cons b rest2 =>
          rw [hfl] at hinv
          simp at hinv
    have hcomm : (db.ratings.map (fun x =>
        if x.id = ex.id then { x with rating := r, created_at := now }
        else x)).filter (fun x =>
          x.user_id == u.id && x.course_id == cid) =
        (db.ratings.filter (fun x =>
          x.user_id == u.id && x.course_id == cid)).map (fun x =>
            if x.id = ex.id then { x with rating := r, created_at := now }
            else x) := by
      refine filter_map_comm _ _ db.ratings (fun x _ => ?_)
      by_cases hid : x.id = ex.id
      · simp [hid]
      · simp [hid]
    refine ⟨_, _, rfl, ?_, rfl, rfl, rfl⟩
    refine ⟨{ ex with rating := r, created_at := now }, ?_, rfl⟩
    dsimp only
    rw [hcomm, hfil]
    simp

/-- Across any sequence of valid rate calls by one user for one course,
the store keeps at most one rating row for the key, and after a
nonempty sequence it keeps exactly one row holding the last value. -/
theorem rateSeq_last (u : UserRow) (cid : String) (now : Nat)
    (hcid : cid ≠ "") :
    ∀ (rs : List Int) (db : DB),
      (∀ r ∈ rs, 1 ≤ r ∧ r ≤ 5) →
      (db.ratings.filter (fun x =>
        x.user_id == u.id && x.course_id == cid)).length ≤ 1 →
      ((rateSeq u cid now db rs).ratings.filter (fun x =>
        x.user_id == u.id && x.course_id == cid)).length ≤ 1 ∧
      (∀ rlast, rs.getLast? = some rlast →
        ∃ row : RatingRow,
          (rateSeq u cid now db rs).ratings.filter (fun x =>
            x.user_id == u.id && x.course_id == cid) = [row] ∧
          row.rating = rlast) := by
  intro rs
  induction rs with
  | nil =>
    intro db _ hinv
    exact ⟨hinv, by intro rlast h; simp at h⟩
  | cons r rs ih =>
    intro db hvalid hinv
    obtain ⟨resp, db1, heq, ⟨row, hrow, hrat⟩, _, _, _⟩ :=
      rate_course_step db u cid r now hcid
        (hvalid r (by simp)).1 (hvalid r (by simp)).2 hinv
    have hseq : rateSeq u cid now db (r :: rs) = rateSeq u cid now db1 rs := by
      rw [rateSeq, heq]
    cases rs with
    | nil =>
      rw [hseq]
      refine ⟨by rw [rateSeq, hrow]; simp, ?_⟩
      intro rlast hl
      simp only [List.getLast?_singleton, Option.some.injEq] at hl
      exact ⟨row, by rw [rateSeq]; exact hrow, by rw [hrat, hl]⟩
    | cons r2 rs2 =>
      have h2 := ih db1 (fun x hx => hvalid x (by simp [hx]))
        (by rw [hrow]; simp)
      refine ⟨by rw [hseq]; exact h2.1, ?_⟩
      intro rlast hl
      rw [List.getLast?_cons_cons] at hl
      rw [hseq]
      exact h2.2 rlast hl

/-- Explicit result of a valid rate call when no rating row exists for
the key: the row is appended and the response reports the post-state
aggregate. -/
theorem rate_course_insert_eq (db : DB) (u : UserRow) (cid : String)
    (r : Int) (now : Nat) (hcid : cid ≠ "") (h1 : 1 ≤ r) (h5 : r ≤ 5)
    (hfr : findRating db u.id cid = none) :
    rate_course db u (some cid) (ReqVal.rInt r) now =
      Except.ok
        ({ status := 200, error := none, message := some "Rating saved",
           average := ratingAvg { db with
             ratings := db.ratings ++
               [{ id := db.nextRatingId, user_id := u.id, course_id := cid,
                  rating := r, created_at := now }],
             nextRatingId := db.nextRatingId + 1 } cid,
           count := some (ratingCount { db with
             ratings := db.ratings ++
               [{ id := db.nextRatingId, user_id := u.id, course_id := cid,
                  rating := r, created_at := now }],
             nextRatingId := db.nextRatingId + 1 } cid) },
         { db with
           ratings := db.ratings ++
             [{ id := db.nextRatingId, user_id := u.id, course_id := cid,
                rating := r, created_at := now }],
           nextRatingId := db.nextRatingId + 1 }) := by
  have htr : pyTruthy (ReqVal.rInt r) = true := by
    simp only [pyTruthy, bne_iff_ne, ne_eq, decide_not, decide_eq_true_eq]
    omega
  have hpy : pyInt (if pyTruthy (ReqVal.rInt r) then ReqVal.rInt r
      else ReqVal.rInt 0) = Except.ok r := by
    rw [htr]
    rfl
  have hval : ¬ (cid = "" ∨ r < 1 ∨ 5 < r) := by
    push_neg
    exact ⟨hcid, by omega, by omega⟩
  simp only [rate_course, hpy, Option.getD_some]
  rw [if_neg hval, hfr]

/-- Explicit result of a valid rate call when a rating row exists for
the key: every row bearing its primary key is overwritten in place and
the response reports the post-state aggregate. -/
theorem rate_course_update_eq (db : DB) (u : UserRow) (cid : String)
    (r : Int) (now : Nat) (ex : RatingRow)
    (hcid : cid ≠ "") (h1 : 1 ≤ r) (h5 : r ≤ 5)
    (hfr : findRating db u.id cid = some ex) :
    rate_course db u (some cid) (ReqVal.rInt r) now =
      Except.ok
        ({ status := 200, error := none, message := some "Rating saved",
           average := ratingAvg { db with
             ratings := db.ratings.map (fun x =>
               if x.id = ex.id then { x with rating := r, created_at := now }
               else x) } cid,
           count := some (ratingCount { db with
             ratings := db.ratings.map (fun x =>
               if x.id = ex.id then { x with rating := r, created_at := now }
               else x) } cid) },
         { db with
           ratings := db.ratings.map (fun x =>
             if x.id = ex.id then { x with rating := r, created_at := now }
             else x) }) := by
  have htr : pyTruthy (ReqVal.rInt r) = true := by
    simp only [pyTruthy, bne_iff_ne, ne_eq, decide_not, decide_eq_true_eq]
    omega
  have hpy : pyInt (if pyTruthy (ReqVal.rInt r) then ReqVal.rInt r
      else ReqVal.rInt 0) = Except.ok r := by
    rw [htr]
    rfl
  have hval : ¬ (cid = "" ∨ r < 1 ∨ 5 < r) := by
    push_neg
    exact ⟨hcid, by omega, by omega⟩
  simp only [rate_course, hpy, Option.getD_some]
  rw [if_neg hval, hfr]

/-- C3: rating is an upsert keeping uniqueness.  Under the storage
invariant (at most one rating row per key), after any nonempty sequence
of valid rate calls by user u for course c there is exactly one rating
row for (u, c) and it holds the last rating written; in particular, on a
course with no prior ratings, two successive calls (such as 3 then 5)
leave one row holding the second value and the second response reports
count = 1 and average = the second value. -/
theorem rate_course_upsert (db : DB) (u : UserRow) (cid : String)
    (now : Nat) (hcid : cid ≠ "")
    (hinv : (db.ratings.filter (fun x =>
      x.user_id == u.id && x.course_id == cid)).length ≤ 1) :
    (∀ rs : List Int, (∀ r ∈ rs, 1 ≤ r ∧ r ≤ 5) →
      ∀ rlast, rs.getLast? = some rlast →
        ∃ row : RatingRow,
          (rateSeq u cid now db rs).ratings.filter (fun x =>
            x.user_id == u.id && x.course_id == cid) = [row] ∧
          row.rating = rlast) ∧
    (courseRatings db cid = [] →
      ∀ r1 r2 : Int, 1 ≤ r1 → r1 ≤ 5 → 1 ≤ r2 → r2 ≤ 5 →
      ∃ resp1 db1 resp2 db2,
        rate_course db u (some cid) (ReqVal.rInt r1) now =
          Except.ok (resp1, db1) ∧
        rate_course db1 u (some cid) (ReqVal.rInt r2) now =
          Except.ok (resp2, db2) ∧
        (∃ row : RatingRow,
          db2.ratings.filter (fun x =>
            x.user_id == u.id && x.course_id == cid) = [row] ∧
          row.rating = r2) ∧
        resp2.count = some 1 ∧
        resp2.average = some (r2 : ℚ)) := by
  constructor
  · intro rs hvalid rlast hl
    exact (rateSeq_last u cid now hcid rs db hvalid hinv).2 rlast hl
  · intro hempty r1 r2 h11 h15 h21 h25
    unfold courseRatings at hempty
    have hcourse_nil : ∀ x ∈ db.ratings, (x.course_id == cid) = false := by
      intro x hx
      have h := List.filter_eq_nil_iff.mp hempty x hx
      simpa using h
    have hfr1 : findRating db u.id cid = none := by
      unfold findRating
      rw [List.find?_eq_none]
      intro x hx h
      rw [Bool.and_eq_true] at h
      rw [hcourse_nil x hx] at h
      exact Bool.false_ne_true h.2
    have hcall1 := rate_course_insert_eq db u cid r1 now hcid h11 h15 hfr1
    have hfr2 : findRating
        { db with
          ratings := db.ratings ++
            [{ id := db.nextRatingId, user_id := u.id, course_id := cid,
               rating := r1, created_at := now }],
          nextRatingId := db.nextRatingId + 1 } u.id cid =
        some { id := db.nextRatingId, user_id := u.id, course_id := cid,
               rating := r1, created_at := now } := by
      unfold findRating at hfr1 ⊢
      dsimp only
      rw [List.find?_append, hfr1, Option.none_or]
      simp
    have hcall2 := rate_course_update_eq
      { db with
        ratings := db.ratings ++
          [{ id := db.nextRatingId, user_id := u.id, course_id := cid,
             rating := r1, created_at := now }],
        nextRatingId := db.nextRatingId + 1 }
      u cid r2 now
      { id := db.nextRatingId, user_id := u.id, course_id := cid,
        rating := r1, created_at := now }
      hcid h21 h25 hfr2
    have hprekey : db.ratings.filter (fun x =>
        x.user_id == u.id && x.course_id == cid) = [] :=
      List.filter_eq_nil_iff.mpr (fun x hx h => by
        rw [Bool.and_eq_true] at h
        rw [hcourse_nil x hx] at h
        exact Bool.false_ne_true h.2)
    have hprecourse : db.ratings.filter (fun x => x.course_id == cid) = [] :=
      List.filter_eq_nil_iff.mpr (fun x hx h => by
        rw [hcourse_nil x hx] at h
        exact Bool.false_ne_true h)
    have hmapnilkey : (db.ratings.map (fun x =>
        if x.id = db.nextRatingId then { x with rating := r2, created_at := now }
        else x)).filter (fun x =>
          x.user_id == u.id && x.course_id == cid) = [] := by
      rw [filter_map_comm
        (fun x : RatingRow =>
          if x.id = db.nextRatingId then { x with rating := r2, created_at := now }
          else x)
        (fun x : RatingRow => x.user_id == u.id && x.course_id == cid)
        db.ratings (fun x _ => by
          by_cases hid : x.id = db.nextRatingId
          · simp [hid]
          · simp [hid])]
      rw [hprekey]
      rfl
    have hmapnilcourse : (db.ratings.map (fun x =>
        if x.id = db.nextRatingId then { x with rating := r2, created_at := now }
        else x)).filter (fun x => x.course_id == cid) = [] := by
      rw [filter_map_comm
        (fun x : RatingRow =>
          if x.id = db.nextRatingId then { x with rating := r2, created_at := now }
          else x)
        (fun x : RatingRow => x.course_id == cid)
        db.ratings (fun x _ => by
          by_cases hid : x.id = db.nextRatingId
          · simp [hid]
          · simp [hid])]
      rw [hprecourse]
      rfl
    have hkey2 : ((db.ratings ++
        [({ id := db.nextRatingId, user_id := u.id, course_id := cid,
            rating := r1, created_at := now } : RatingRow)]).map (fun x =>
          if x.id = db.nextRatingId then { x with rating := r2, created_at := now }
          else x)).filter (fun x =>
            x.user_id == u.id && x.course_id == cid) =
        [{ id := db.nextRatingId, user_id := u.id, course_id := cid,
           rating := r2, created_at := now }] := by
      rw [List.map_append, List.filter_append, hmapnilkey]
      simp
    have hcourse2 : ((db.ratings ++
        [({ id := db.nextRatingId, user_id := u.id, course_id := cid,
            rating := r1, created_at := now } : RatingRow)]).map (fun x =>
          if x.id = db.nextRatingId then { x with rating := r2, created_at := now }
          else x)).filter (fun x => x.course_id == cid) =
        [{ id := db.nextRatingId, user_id := u.id, course_id := cid,
           rating := r2, created_at := now }] := by
      rw [List.map_append, List.filter_append, hmapnilcourse]
      simp
    have hcount : ratingCount
        { db with
          ratings := (db.ratings ++
            [({ id := db.nextRatingId, user_id := u.id, course_id := cid,
                rating := r1, created_at := now } : RatingRow)]).map (fun x =>
              if x.id = db.nextRatingId then
                { x with rating := r2, created_at := now }
              else x),
          nextRatingId := db.nextRatingId + 1 } cid = 1 := by
      unfold ratingCount courseRatings
      dsimp only
      rw [hcourse2]
      rfl
    have havg : ratingAvg
        { db with
          ratings := (db.ratings ++
            [({ id := db.nextRatingId, user_id := u.id, course_id := cid,
                rating := r1, created_at := now } : RatingRow)]).map (fun x =>
              if x.id = db.nextRatingId then
                { x with rating := r2, created_at := now }
              else x),
          nextRatingId := db.nextRatingId + 1 } cid = some (r2 : ℚ) := by
      unfold ratingAvg ratingCount ratingSum courseRatings
      dsimp only
      rw [hcourse2]
      norm_num
    refine ⟨_, _, _, _, hcall1, hcall2, ?_, ?_, ?_⟩
    · exact ⟨{ id := db.nextRatingId, user_id := u.id, course_id := cid,
               rating := r2, created_at := now }, hkey2, rfl⟩
    · dsimp only
      rw [hcount]
    · dsimp only
      rw [havg]

/-- Witness for C3 at a concrete store: user 1 rates course "c1" with 3
then 5; one rating row remains, holding 5, and the second response
reports count 1 and average 5. -/
theorem rate_course_upsert_witness :
    (∃ row : RatingRow,
      (rateSeq
        { id := 1, username := "alice", email := "a@x.com",
          password_hash := "h", points := 0 } "c1" 0
        { users := [{ id := 1, username := "alice", email := "a@x.com",
                      password_hash := "h", points := 0 }],
          completions := [], ratings := [],
          nextUserId := 2, nextCompletionId := 1, nextRatingId := 1 }
        [3, 5]).ratings.filter (fun x =>
          x.user_id == (1 : Nat) && x.course_id == "c1") = [row] ∧
      row.rating = (5 : Int)) ∧
    (∃ resp1 db1 resp2 db2,
      rate_course
        { users := [{ id := 1, username := "alice", email := "a@x.com",
                      password_hash := "h", points := 0 }],
          completions := [], ratings := [],
          nextUserId := 2, nextCompletionId := 1, nextRatingId := 1 }
        { id := 1, username := "alice", email := "a@x.com",
          password_hash := "h", points := 0 }
        (some "c1") (ReqVal.rInt 3) 0 = Except.ok (resp1, db1) ∧
      rate_course db1
        { id := 1, username := "alice", email := "a@x.com",
          password_hash := "h", points := 0 }
        (some "c1") (ReqVal.rInt 5) 0 = Except.ok (resp2, db2) ∧
      (∃ row : RatingRow,
        db2.ratings.filter (fun x =>
          x.user_id == (1 : Nat) && x.course_id == "c1") = [row] ∧
        row.rating = (5 : Int)) ∧
      resp2.count = some 1 ∧
      resp2.average = some ((5 : Int) : ℚ)) :=
  let h := rate_course_upsert
    { users := [{ id := 1, username := "alice", email := "a@x.com",
                  password_hash := "h", points := 0 }],
      completions := [], ratings := [],
      nextUserId := 2, nextCompletionId := 1, nextRatingId := 1 }
    { id := 1, username := "alice", email := "a@x.com",
      password_hash := "h", points := 0 } "c1" 0
    (by decide) (by decide)
  ⟨h.1 [3, 5] (by decide) 5 (by rfl),
   h.2 (by rfl) 3 5 (by decide) (by decide) (by decide) (by decide)⟩

/-- C8: course-listing personalization.  With no Authorization header,
or with a token that fails verification, the listing succeeds and no
record carries a `completed` key; with a token verifying to a (nonzero)
user id, every record carries `completed`, true exactly for the courses
that user has completed (every real user id is nonzero, since SQLite
AUTOINCREMENT keys start at 1). -/
theorem courses_personalization (db : DB) (catalog : List String)
    (now : Nat) :
    (∀ c ∈ courses db catalog none now, c.completed = none) ∧
    (∀ t : TokenT, verify_token t now = none →
      ∀ c ∈ courses db catalog (some t) now, c.completed = none) ∧
    (∀ t : TokenT, ∀ uid : Int, verify_token t now = some uid → uid ≠ 0 →
      ∀ c ∈ courses db catalog (some t) now,
        c.completed = some (db.completions.any (fun r =>
          (r.user_id : Int) == uid && r.course_id == c.id)) ∧
        (c.completed = some true ↔
          ∃ r ∈ db.completions, (r.user_id : Int) = uid ∧
            r.course_id = c.id)) := by
  refine ⟨?_, ?_, ?_⟩
  · intro c hc
    simp only [courses] at hc
    obtain ⟨cid, _, rfl⟩ := List.mem_map.mp hc
    rfl
  · intro t hver c hc
    simp only [courses, hver] at hc
    obtain ⟨cid, _, rfl⟩ := List.mem_map.mp hc
    rfl
  · intro t uid hver huid c hc
    simp only [courses, hver] at hc
    rw [if_pos huid] at hc
    rw [List.map_map] at hc
    obtain ⟨cid, _, rfl⟩ := List.mem_map.mp hc
    constructor
    · rfl
    · simp only [Function.comp]
      constructor
      · intro h
        have h2 : db.completions.any (fun r =>
            (r.user_id : Int) == uid && r.course_id == cid) = true := by
          simpa using h
        obtain ⟨r, hr, hpr⟩ := List.any_eq_true.mp h2
        rw [Bool.and_eq_true] at hpr
        exact ⟨r, hr, by simpa using hpr.1, by simpa using hpr.2⟩
      · rintro ⟨r, hr, h1, h2⟩
        have h3 : db.completions.any (fun r =>
            (r.user_id : Int) == uid && r.course_id == cid) = true := by
          refine List.any_eq_true.mpr ⟨r, hr, ?_⟩
          rw [Bool.and_eq_true]
          exact ⟨by simpa using h1, by simpa using h2⟩
        simpa using h3

/-- Witness for C8 at a concrete store and catalog: with no header the
"c1" record has no completed key; with a valid token for user 1 (who
completed "c1") the "c1" record carries completed = true, matching the
completion ledger. -/
theorem courses_personalization_witness :
    (({ id := "c1", avg_rating := none, rating_count := 0,
        completed := none } : CourseOut).completed = none) ∧
    (({ id := "c1", avg_rating := none, rating_count := 0,
        completed := some true } : CourseOut).completed =
      some ([({ id := 1, user_id := 1, course_id := "c1" } : CompletionRow)].any
        (fun r => (r.user_id : Int) == ((1 : Nat) : Int) &&
          r.course_id == "c1"))) ∧
    (({ id := "c1", avg_rating := none, rating_count := 0,
        completed := some true } : CourseOut).completed = some true ↔
      ∃ r ∈ [({ id := 1, user_id := 1, course_id := "c1" } : CompletionRow)],
        (r.user_id : Int) = ((1 : Nat) : Int) ∧ r.course_id = "c1") :=
  let h := courses_personalization
    { users := [{ id := 1, username := "alice", email := "a@x.com",
                  password_hash := "h", points := 100 }],
      completions := [{ id := 1, user_id := 1, course_id := "c1" }],
      ratings := [],
      nextUserId := 2, nextCompletionId := 2, nextRatingId := 1 }
    ["c1", "c2"] 0
  let h3 := h.2.2 (make_token 1 0) ((1 : Nat) : Int)
    (verify_token_make_token 1 0 0 (by omega)) (by decide)
    { id := "c1", avg_rating := none, rating_count := 0,
      completed := some true } (by decide)
  ⟨h.1 { id := "c1", avg_rating := none, rating_count := 0,
         completed := none } (by decide),
   h3.1, h3.2⟩
